import Mathlib

/-!
# Verification of the model-dissection engine against its specification

Shallow embedding of `model_dissection_engine.py` (the GGUF container
decoder, tensor payload extractor, weight merger, capability prober
scoring, capability matrix / routing / fusion-weight synthesis).

Conventions of the embedding:
* Bytes are `Nat` values; a Python binary file handle is a `ByteStream`
  (immutable byte list plus cursor).  `fread` mirrors Python's
  `file.read(n)`: it returns *up to* `n` bytes and advances the cursor by
  the number of bytes actually returned.
* `struct.unpack` of a fixed-width code on a short buffer raises
  `struct.error` in Python; this is the `DErr.structError` outcome.
  `DErr.truncatedStream` is produced only by the spec-modelled reader
  (section on the specification decoder), never by the source embedding.
* Python floats are modelled as `ℚ` (exact real arithmetic); IEEE bit
  patterns read from the stream are carried as raw `Nat` bit patterns
  (`MValue.f32`, tensor payload words) because no claim inspects the
  numeric value of a decoded float.
* UTF-8 decoding of name/key/string bytes is abstracted: the raw byte
  list is carried (no claim inspects the decoded text of stream data).
* Python dict assignment `d[k] = v` is `dictInsert` (replace the existing
  binding, else append); dict/set iteration order is the insertion /
  first-seen order, which Python guarantees for dicts and which we adopt
  as the list order for sets.
-/

/-- A finite byte source with a cursor, mirroring an open binary file. -/
structure ByteStream where
  data : List Nat
  pos : Nat
deriving DecidableEq, Repr

/-- Python `f.read n`: return up to `n` bytes from the cursor and advance
the cursor by the number of bytes actually obtained. -/
def fread (s : ByteStream) (n : Nat) : List Nat × ByteStream :=
  let bs := (s.data.drop s.pos).take n
  (bs, { s with pos := s.pos + bs.length })

/-- Little-endian value of a byte list (base 256, least significant first). -/
def leVal (bs : List Nat) : Nat :=
  bs.foldr (fun b acc => b + 256 * acc) 0

/-- Decode failures of the container decoder.  `structError` is Python's
`struct.error`, raised by `struct.unpack` when the buffer obtained from a
read is shorter than the format requires.  `truncatedStream` is the
pre-checked truncation failure demanded by the specification; the source
embedding never produces it (only the spec-modelled reader does). -/
inductive DErr where
  | structError
  | truncatedStream
deriving DecidableEq, Repr

/-- `struct.unpack` of an unsigned little-endian integer of `n` bytes read
from the stream: the bytes are read first (consuming what is available),
then unpack fails if fewer than `n` bytes were obtained. -/
def unpackUInt (s : ByteStream) (n : Nat) : Except DErr (Nat × ByteStream) :=
  let (bs, s1) := fread s n
  if bs.length = n then .ok (leVal bs, s1) else .error .structError

/-- Two's-complement reinterpretation of an `n`-byte unsigned value. -/
def toSigned (v : Nat) (n : Nat) : Int :=
  if v < 2 ^ (8 * n - 1) then (v : Int) else (v : Int) - 2 ^ (8 * n)

/-- `struct.unpack` of a signed little-endian integer of `n` bytes. -/
def unpackSInt (s : ByteStream) (n : Nat) : Except DErr (Int × ByteStream) :=
  match unpackUInt s n with
  | .ok (v, s1) => .ok (toSigned v n, s1)
  | .error e => .error e

/-- A decoded GGUF metadata value (`_read_metadata_value` results).
Floats carry their IEEE bit pattern; strings carry their raw bytes. -/
inductive MValue where
  | u8 (v : Nat)
  | i8 (v : Int)
  | u16 (v : Nat)
  | i16 (v : Int)
  | u32 (v : Nat)
  | i32 (v : Int)
  | f32 (bits : Nat)
  | boolean (b : Bool)
  | str (bytes : List Nat)
deriving DecidableEq, Repr

/-- `ModelDissector._read_metadata_value(f, value_type)`: dispatch on the
32-bit type tag.  The final `else` branch of the source returns Python
`None` — embedded as `Option.none` — consuming no bytes and raising no
error. -/
def readMetadataValue (s : ByteStream) (valueType : Nat) :
    Except DErr (Option MValue × ByteStream) :=
  if valueType = 0 then
    match unpackUInt s 1 with
    | .ok (v, s1) => .ok (some (.u8 v), s1)
    | .error e => .error e
  else if valueType = 1 then
    match unpackSInt s 1 with
    | .ok (v, s1) => .ok (some (.i8 v), s1)
    | .error e => .error e
  else if valueType = 2 then
    match unpackUInt s 2 with
    | .ok (v, s1) => .ok (some (.u16 v), s1)
    | .error e => .error e
  else if valueType = 3 then
    match unpackSInt s 2 with
    | .ok (v, s1) => .ok (some (.i16 v), s1)
    | .error e => .error e
  else if valueType = 4 then
    match unpackUInt s 4 with
    | .ok (v, s1) => .ok (some (.u32 v), s1)
    | .error e => .error e
  else if valueType = 5 then
    match unpackSInt s 4 with
    | .ok (v, s1) => .ok (some (.i32 v), s1)
    | .error e => .error e
  else if valueType = 6 then
    match unpackUInt s 4 with
    | .ok (v, s1) => .ok (some (.f32 v), s1)
    | .error e => .error e
  else if valueType = 7 then
    match unpackUInt s 1 with
    | .ok (v, s1) => .ok (some (.boolean (v != 0)), s1)
    | .error e => .error e
  else if valueType = 8 then
    match unpackUInt s 8 with
    | .ok (strLen, s1) =>
      let (bs, s2) := fread s1 strLen
      .ok (some (.str bs), s2)
    | .error e => .error e
  else
    .ok (none, s)

deriving instance DecidableEq for Except

/-- One tensor descriptor decoded from the GGUF tensor table
(`_extract_tensor_info` entries: name bytes, dims, type tag, offset). -/
structure TensorInfo where
  name : List Nat
  dims : List Nat
  ttype : Nat
  offset : Nat
deriving DecidableEq, Repr

/-- The dimension loop of `_extract_tensor_info`: `n_dims` unsigned
64-bit reads. -/
def readDims (s : ByteStream) : Nat → Except DErr (List Nat × ByteStream)
  | 0 => .ok ([], s)
  | n + 1 =>
    match unpackUInt s 8 with
    | .ok (d, s1) =>
      match readDims s1 n with
      | .ok (ds, s2) => .ok (d :: ds, s2)
      | .error e => .error e
    | .error e => .error e

/-- One iteration of `_extract_tensor_info`: read the name length, the
name bytes (`f.read` of a short name is not itself an error in the
source), the dimension count, the dimensions, the tensor type and the
payload offset. -/
def readTensorEntry (s : ByteStream) : Except DErr (TensorInfo × ByteStream) :=
  match unpackUInt s 8 with
  | .ok (nameLen, s1) =>
    let (name, s2) := fread s1 nameLen
    match unpackUInt s2 4 with
    | .ok (nDims, s3) =>
      match readDims s3 nDims with
      | .ok (dims, s4) =>
        match unpackUInt s4 4 with
        | .ok (ttype, s5) =>
          match unpackUInt s5 8 with
          | .ok (off, s6) => .ok (⟨name, dims, ttype, off⟩, s6)
          | .error e => .error e
        | .error e => .error e
      | .error e => .error e
    | .error e => .error e
  | .error e => .error e

/-- `ModelDissector._extract_tensor_info(f, tensor_count)`: decode
`tensor_count` descriptor entries in sequence. -/
def extractTensorInfo (s : ByteStream) : Nat → Except DErr (List TensorInfo × ByteStream)
  | 0 => .ok ([], s)
  | n + 1 =>
    match readTensorEntry s with
    | .ok (t, s1) =>
      match extractTensorInfo s1 n with
      | .ok (ts, s2) => .ok (t :: ts, s2)
      | .error e => .error e
    | .error e => .error e

/-- Modelled from the spec: the Container Reader of spec section 4.1,
which is absent from the source as a distinct component.  "Fails with
`TruncatedStreamError` if fewer bytes remain than required — this must
be checked before every read": the remaining-byte check precedes the
read, the failure is `truncatedStream`, and a failing read consumes
nothing. -/
def specReadBytes (s : ByteStream) (n : Nat) : Except DErr (List Nat × ByteStream) :=
  if s.data.length - s.pos < n then .error .truncatedStream
  else .ok ((s.data.drop s.pos).take n, { s with pos := s.pos + n })

/-- Modelled from the spec: pre-checked unsigned little-endian read of the
spec's Container Reader. -/
def specUnpackUInt (s : ByteStream) (n : Nat) : Except DErr (Nat × ByteStream) :=
  match specReadBytes s n with
  | .ok (bs, s1) => .ok (leVal bs, s1)
  | .error e => .error e

/-- Modelled from the spec: dimension loop of the spec's
`decode_tensor_table`, with every read pre-checked. -/
def specReadDims (s : ByteStream) : Nat → Except DErr (List Nat × ByteStream)
  | 0 => .ok ([], s)
  | n + 1 =>
    match specUnpackUInt s 8 with
    | .ok (d, s1) =>
      match specReadDims s1 n with
      | .ok (ds, s2) => .ok (d :: ds, s2)
      | .error e => .error e
    | .error e => .error e

/-- Modelled from the spec: one `decode_tensor_table` entry with every
read (including the name bytes) pre-checked against the remaining length. -/
def specReadTensorEntry (s : ByteStream) : Except DErr (TensorInfo × ByteStream) :=
  match specUnpackUInt s 8 with
  | .ok (nameLen, s1) =>
    match specReadBytes s1 nameLen with
    | .ok (name, s2) =>
      match specUnpackUInt s2 4 with
      | .ok (nDims, s3) =>
        match specReadDims s3 nDims with
        | .ok (dims, s4) =>
          match specUnpackUInt s4 4 with
          | .ok (ttype, s5) =>
            match specUnpackUInt s5 8 with
            | .ok (off, s6) => .ok (⟨name, dims, ttype, off⟩, s6)
            | .error e => .error e
          | .error e => .error e
        | .error e => .error e
      | .error e => .error e
    | .error e => .error e
  | .error e => .error e

/-- Modelled from the spec: `decode_tensor_table(reader, count)` of spec
section 4.2, decoding `count` entries with pre-checked reads. -/
def extractTensorInfoSpec (s : ByteStream) : Nat → Except DErr (List TensorInfo × ByteStream)
  | 0 => .ok ([], s)
  | n + 1 =>
    match specReadTensorEntry s with
    | .ok (t, s1) =>
      match extractTensorInfoSpec s1 n with
      | .ok (ts, s2) => .ok (t :: ts, s2)
      | .error e => .error e
    | .error e => .error e

/-- The per-artifact exception boundary of `extract_gguf_weights`: any
decode exception is caught there, so a failing artifact yields no tensor
table while other artifacts are unaffected. -/
def extractTensorInfoCaught (s : ByteStream) (count : Nat) : Option (List TensorInfo) :=
  match extractTensorInfo s count with
  | .ok (ts, _) => some ts
  | .error _ => none

/-- Bytes of one well-formed table entry: name "a", one dimension of 2,
type F32, offset 0 (33 bytes). -/
def sampleEntryBytes : List Nat :=
  [1, 0, 0, 0, 0, 0, 0, 0] ++ [97] ++ [1, 0, 0, 0] ++
  [2, 0, 0, 0, 0, 0, 0, 0] ++ [0, 0, 0, 0] ++ [0, 0, 0, 0, 0, 0, 0, 0]

/-- A container stream whose table holds exactly 2 complete entries
(the header would have declared `tensor_count = 5`). -/
def truncatedTable : ByteStream := ⟨sampleEntryBytes ++ sampleEntryBytes, 0⟩

/-- Python dict assignment `d[k] = v`: replace the binding if the key is
present, else append it, preserving insertion order. -/
def dictInsert {κ ν : Type} [BEq κ] (l : List (κ × ν)) (k : κ) (v : ν) : List (κ × ν) :=
  if l.any (fun p => p.1 == k) then
    l.map (fun p => if p.1 == k then (k, v) else p)
  else l ++ [(k, v)]

/-- Group a byte list into consecutive 4-byte little-endian words
(the `struct.unpack` of `size` F32 values, each word carried as its raw
bit pattern). -/
def chunk4 : List Nat → List Nat
  | b0 :: b1 :: b2 :: b3 :: rest => leVal [b0, b1, b2, b3] :: chunk4 rest
  | _ => []

/-- Group a byte list into consecutive 2-byte little-endian half-words
(the per-pair `struct.unpack` of F16 values in the source's loop). -/
def chunk2 : List Nat → List Nat
  | b0 :: b1 :: rest => leVal [b0, b1] :: chunk2 rest
  | _ => []

/-- One stored tensor of `_extract_tensor_data`'s `layers` dict: decoded
payload words (raw bit patterns), the declared shape, and the type tag. -/
structure TensorEntry where
  data : List Nat
  shape : List Nat
  ttype : Nat
deriving DecidableEq, Repr

/-- One loop iteration of `_extract_tensor_data` over a descriptor:
seek to the declared offset, compute the element count as the product of
the dims, then dispatch on the type tag.  F32 unpacks `size * 4` bytes in
one `struct.unpack` call (a short read raises `struct.error`, caught by
the per-tensor handler, which logs the tensor's name as a warning and
skips it).  F16 reads `size * 2` bytes and unpacks 2-byte slices in a
loop: an odd byte count makes the final 1-byte slice raise (warn + skip),
while an even-but-short read silently yields fewer values.  Any other
type tag falls to the bare `continue`: no buffer, no warning. -/
def tensorStep (base : List Nat)
    (acc : List (List Nat × TensorEntry) × List (List Nat)) (t : TensorInfo) :
    List (List Nat × TensorEntry) × List (List Nat) :=
  let (layers, warnings) := acc
  let s : ByteStream := ⟨base, t.offset⟩
  let size := t.dims.foldl (· * ·) 1
  if t.ttype = 0 then
    let (bs, _) := fread s (size * 4)
    if bs.length = size * 4 then
      (dictInsert layers t.name ⟨chunk4 bs, t.dims, 0⟩, warnings)
    else (layers, warnings ++ [t.name])
  else if t.ttype = 1 then
    let (raw, _) := fread s (size * 2)
    if raw.length % 2 = 0 then
      (dictInsert layers t.name ⟨chunk2 raw, t.dims, 1⟩, warnings)
    else (layers, warnings ++ [t.name])
  else (layers, warnings)

/-- `ModelDissector._extract_tensor_data(f, tensor_info)`: fold the
per-tensor step over the descriptor table.  Since every iteration starts
with `f.seek(offset)`, each tensor is decoded from the shared underlying
bytes independently of the cursor left by earlier tensors.  The second
component collects the names warned about by the per-tensor exception
handler. -/
def extractTensorData (base : List Nat) (infos : List TensorInfo) :
    List (List Nat × TensorEntry) × List (List Nat) :=
  infos.foldl (tensorStep base) ([], [])

/-- Whether `pat` occurs at the head of `l` (character-wise). -/
def matchesAt : List Char → List Char → Bool
  | p :: ps, c :: cs => p == c && matchesAt ps cs
  | pat, _ => pat.isEmpty

/-- Whether `pat` occurs as a contiguous sublist of `l` — Python's
`pat in s` substring test on the character lists. -/
def containsSub (pat : List Char) : List Char → Bool
  | [] => pat.isEmpty
  | c :: cs => matchesAt pat (c :: cs) || containsSub pat cs

/-- Python `pat in s` for strings. -/
def strContains (s pat : String) : Bool :=
  containsSub pat.toList s.toList

/-- Python `s.lower()`, character-wise (the names and indicator terms in
play are ASCII, where this coincides with Python's semantics). -/
def strLower (s : String) : String :=
  ⟨s.data.map Char.toLower⟩

/-- The unified supermodel dictionaries built by `merge_extracted_weights`
(tensor payloads are abstracted to an opaque `Nat` identifier; the
`output_layers`, vocabulary and routing-map fields of the source are never
written by the merge loop and are omitted). -/
structure UnifiedModel where
  embedding_layers : List (String × Nat)
  transformer_blocks : List (String × Nat)
  attention_layers : List (String × Nat)
  feed_forward_layers : List (String × Nat)
deriving DecidableEq, Repr

/-- One iteration of the inner loop of `merge_extracted_weights` over a
`(layer_name, layer_data)` item of model `modelIdx`, threading the shared
`layer_counter`.  Bucket choice is by lowercase substring match; note the
source increments `layer_counter` in the attention and general-block
branches but not in the mlp/ffn branch. -/
def mergeLayer (modelIdx : Nat) (st : UnifiedModel × Nat) (layer : String × Nat) :
    UnifiedModel × Nat :=
  let (u, ctr) := st
  let lower := strLower layer.1
  if strContains lower "embed" then
    ({ u with embedding_layers :=
        dictInsert u.embedding_layers ("model_" ++ toString modelIdx ++ "_" ++ layer.1) layer.2 },
      ctr)
  else if strContains lower "attn" || strContains lower "attention" then
    ({ u with attention_layers :=
        dictInsert u.attention_layers ("unified_attn_" ++ toString ctr) layer.2 },
      ctr + 1)
  else if strContains lower "mlp" || strContains lower "ffn" then
    ({ u with feed_forward_layers :=
        dictInsert u.feed_forward_layers ("unified_ffn_" ++ toString ctr) layer.2 },
      ctr)
  else if strContains lower "norm" then
    ({ u with transformer_blocks :=
        dictInsert u.transformer_blocks ("norm_" ++ toString modelIdx ++ "_" ++ layer.1) layer.2 },
      ctr)
  else
    ({ u with transformer_blocks :=
        dictInsert u.transformer_blocks ("block_" ++ toString ctr ++ "_" ++ layer.1) layer.2 },
      ctr + 1)

/-- `ModelDissector.merge_extracted_weights(all_weights)`: fold every
model's `layers` dict (in enumeration order) through `mergeLayer`.
A source entry without a `layers` key is skipped by the source's guard;
inputs are given here directly as the per-model layer lists. -/
def mergeExtractedWeights (allWeights : List (List (String × Nat))) : UnifiedModel :=
  (allWeights.enum.foldl
    (fun st mi => mi.2.foldl (mergeLayer mi.1) st) (⟨[], [], [], []⟩, 0)).1

/-- A capability entry of a dissected model (`ModelCapability`); only the
fields consumed by the architect (`domain`, `strength`) are carried, with
strengths as exact rationals. -/
structure ModelCapability where
  domain : String
  strength : ℚ
deriving DecidableEq, Repr

/-- A dissected model's signature (`ModelSignature`); only the fields
consumed by the architect are carried: the name, the capability list and
the `strengths` mapping (as an insertion-ordered association list). -/
structure ModelSignature where
  model_name : String
  capabilities : List ModelCapability
  strengths : List (String × ℚ)
deriving DecidableEq, Repr

/-- First-seen-order deduplication worker (elements already emitted are
tracked in `seen`). -/
def dedupAux (seen : List String) : List String → List String
  | [] => []
  | x :: xs => if seen.contains x then dedupAux seen xs else x :: dedupAux (x :: seen) xs

/-- Deduplicate a list keeping the first occurrence of each element —
the membership structure of a Python `set` built by repeated `add`,
with first-seen iteration order adopted per the file's conventions. -/
def dedupFirst (l : List String) : List String := dedupAux [] l

/-- All capability domains across the signatures, first-seen order
(the Python `all_domains` set). -/
def allDomains (sigs : List ModelSignature) : List String :=
  dedupFirst ((sigs.map (fun s => s.capabilities.map (·.domain))).flatten)

/-- The per-model entry of the capability matrix for one domain:
the mean strength of that model's capabilities in the domain, or `0.0`
when the model has none. -/
def domainStrength (d : String) (s : ModelSignature) : ℚ :=
  let caps := s.capabilities.filter (fun c => c.domain = d)
  if caps = [] then 0 else (caps.map (·.strength)).sum / caps.length

/-- `SuperModelArchitect.build_capability_matrix`: for every domain seen
in any signature, an entry for every known model (mean strength or 0.0). -/
def capabilityMatrix (sigs : List ModelSignature) :
    List (String × List (String × ℚ)) :=
  (allDomains sigs).map (fun d => (d, sigs.map (fun s => (s.model_name, domainStrength d s))))

/-- Python `max(items, key=value)` over an association row: keep the
current best and replace it only on a strictly larger value, so the first
of several maxima wins. -/
def maxByStrength (b : String × ℚ) : List (String × ℚ) → String × ℚ
  | [] => b
  | p :: ps => maxByStrength (if b.2 < p.2 then p else b) ps

/-- First-maximum selection over a row (Python `max` on a non-empty
sequence; `none` for the empty row, where Python would raise). -/
def argmaxFirst : List (String × ℚ) → Option (String × ℚ)
  | [] => none
  | p :: ps => some (maxByStrength p ps)

/-- `SuperModelArchitect.get_best_model_for_domain(domain)`: the first
maximal model of the domain's matrix row, or the first known model when
the domain is absent from the matrix. -/
def getBestModelForDomain (sigs : List ModelSignature) (d : String) : Option String :=
  match (capabilityMatrix sigs).lookup d with
  | some row => (argmaxFirst row).map Prod.fst
  | none => sigs.head?.map (·.model_name)

/-- The fixed domain list of the `domain_experts` block of
`design_supermodel_architecture`. -/
def fixedDomains : List String :=
  ["mathematics", "coding", "reasoning", "language", "creativity", "knowledge"]

/-- The `domain_experts` routing table of
`design_supermodel_architecture`: one best model per fixed domain. -/
def domainExperts (sigs : List ModelSignature) : List (String × Option String) :=
  fixedDomains.map (fun d => (d, getBestModelForDomain sigs d))

/-- The raw (pre-normalization) fusion weight of one signature in
`calculate_fusion_weights`: mean strength (0.5 for an empty strengths
dict) times 0.7 plus capability count over 10 times 0.3. -/
def overallWeight (s : ModelSignature) : ℚ :=
  let vals := s.strengths.map Prod.snd
  let avg : ℚ := if vals = [] then 1 / 2 else vals.sum / vals.length
  let diversity : ℚ := (s.capabilities.length : ℚ) / 10
  avg * (7 / 10) + diversity * (3 / 10)

/-- The raw fusion-weight dict keyed by model name, insertion order. -/
def rawFusionWeights (sigs : List ModelSignature) : List (String × ℚ) :=
  sigs.map (fun s => (s.model_name, overallWeight s))

/-- `SuperModelArchitect.calculate_fusion_weights()`: normalize the raw
weights by their sum, but only when the sum is positive; otherwise the
raw weights are returned unchanged. -/
def calculateFusionWeights (sigs : List ModelSignature) : List (String × ℚ) :=
  let ws := rawFusionWeights sigs
  let total := (ws.map Prod.snd).sum
  if 0 < total then ws.map (fun p => (p.1, p.2 / total)) else ws

/-- Artifact A of the spec's routing example scenario. -/
def artifactA : ModelSignature :=
  ⟨"A", [⟨"mathematics", 9 / 10⟩, ⟨"coding", 2 / 10⟩], [("speed", 1)]⟩

/-- Artifact B of the spec's routing example scenario. -/
def artifactB : ModelSignature :=
  ⟨"B", [⟨"mathematics", 1 / 10⟩, ⟨"coding", 8 / 10⟩], [("speed", 1)]⟩

/-- Python `s.strip()` on the character list: whitespace removed from
both ends. -/
def strTrim (s : String) : String :=
  ⟨((s.data.dropWhile Char.isWhitespace).reverse.dropWhile Char.isWhitespace).reverse⟩

/-- Case-sensitive indicator count: how many of the indicator terms
occur as substrings of the response (`indicator in response`). -/
def countCS (inds : List String) (r : String) : Nat :=
  (inds.filter (fun i => strContains r i)).length

/-- Case-insensitive indicator count
(`indicator.lower() in response.lower()`). -/
def countCI (inds : List String) (r : String) : Nat :=
  (inds.filter (fun i => strContains (strLower r) (strLower i))).length

/-- The fixed `math_indicators` vocabulary of `score_response`. -/
def mathIndicators : List String :=
  ["=", "+", "-", "*", "/", "x", "y", "0", "1", "2", "3", "4", "5", "6", "7", "8", "9"]

/-- The fixed `code_indicators` vocabulary of `score_response`. -/
def codeIndicators : List String :=
  ["def", "function", "print", "return", "()", "\x7b\x7d", "[]", "import", "for", "if"]

/-- The fixed `logic_indicators` vocabulary of `score_response`. -/
def logicIndicators : List String :=
  ["because", "therefore", "if", "then", "since", "however", "thus", "conclusion"]

/-- The fixed `lang_indicators` vocabulary of `score_response`. -/
def langIndicators : List String :=
  ["is", "are", "the", "a", "an", "of", "to", "in", "for", "with"]

/-- The fixed `creative_indicators` vocabulary of `score_response`. -/
def creativeIndicators : List String :=
  ["imagine", "create", "new", "unique", "story", "poem", "beautiful", "wonderful"]

/-- The fixed `fact_indicators` vocabulary of `score_response`. -/
def factIndicators : List String :=
  ["is", "was", "were", "are", "the", "first", "process", "capital", "located"]

/-- The length bonus of `score_response`: `min(0.3, len(response)/100)`. -/
def lengthBonus (r : String) : ℚ :=
  min (3 / 10) ((r.length : ℚ) / 100)

/-- `ModelDissector.score_response(prompt, response, domain)`.  A blank
response scores 0.  The mathematics branch tests its indicators with a
case-sensitive `in`; every other domain branch lowercases both sides.
The unmatched-domain default is 0.5.  The result is `min(1.0, score +
length_bonus)` (the prompt argument is unused in the source body). -/
def scoreResponse (_prompt r domain : String) : ℚ :=
  if strTrim r = "" then 0
  else
    let score : ℚ :=
      if domain = "mathematics" then (countCS mathIndicators r : ℚ) / mathIndicators.length
      else if domain = "coding" then (countCI codeIndicators r : ℚ) / codeIndicators.length
      else if domain = "reasoning" then (countCI logicIndicators r : ℚ) / logicIndicators.length
      else if domain = "language" then (countCI langIndicators r : ℚ) / langIndicators.length
      else if domain = "creativity" then (countCI creativeIndicators r : ℚ) / creativeIndicators.length
      else if domain = "knowledge" then (countCI factIndicators r : ℚ) / factIndicators.length
      else 1 / 2
    min 1 (score + lengthBonus r)

/-- The indicator vocabulary of each domain (shared by the source's
branches and the spec-modelled scorer). -/
def indicatorsFor (domain : String) : List String :=
  if domain = "mathematics" then mathIndicators
  else if domain = "coding" then codeIndicators
  else if domain = "reasoning" then logicIndicators
  else if domain = "language" then langIndicators
  else if domain = "creativity" then creativeIndicators
  else if domain = "knowledge" then factIndicators
  else []

/-- Modelled from the spec: the Capability Prober scoring rule of spec
section 4.4, which counts "how many of a fixed indicator vocabulary for
that domain appear (case-insensitive substring) in the response" for
every domain, normalizes by vocabulary size, adds the capped length
bonus and clamps to the unit interval. -/
def scoreResponseSpec (r domain : String) : ℚ :=
  let inds := indicatorsFor domain
  max 0 (min 1 ((countCI inds r : ℚ) / inds.length + lengthBonus r))

/-- The extracted-container loop of the tar branch of
`ModelDissector.dissect_model_structure`: dissect each extracted
container in order and return the first successful signature
(`_dissect_gguf_model` itself drives an external inference library and
is abstracted as the function argument). -/
def dissectTarContents {α : Type} (dissectOne : α → Option ModelSignature) :
    List α → Option ModelSignature
  | [] => none
  | m :: ms =>
    match dissectOne m with
    | some sig => some sig
    | none => dissectTarContents dissectOne ms

/-- Looking up `d` in an association list built by tagging each element of
`l` with `f` returns `f d` whenever `d` occurs in `l`. -/
theorem lookup_map_self {β : Type} (f : String → β) (l : List String) (d : String)
    (h : d ∈ l) : (l.map (fun x => (x, f x))).lookup d = some (f d) := by
  induction l with
  | nil => exact absurd h (List.not_mem_nil d)
  | cons y ys ih =>
    by_cases hy : y = d
    · subst hy
      simp [List.lookup]
    · have hd : d ∈ ys := by
        rcases List.mem_cons.mp h with rfl | hx
        · exact absurd rfl hy
        · exact hx
      have hbeq : (d == y) = false := by simp [Ne.symm hy]
      simpa [List.lookup, hbeq] using ih hd

/-- `maxByStrength` keeps its seed when nothing beats it. -/
theorem maxByStrength_of_le (b : String × ℚ) (l : List (String × ℚ))
    (h : ∀ q ∈ l, q.2 ≤ b.2) : maxByStrength b l = b := by
  induction l with
  | nil => rfl
  | cons p ps ih =>
    have hp : p.2 ≤ b.2 := h p (by simp)
    have : ¬ b.2 < p.2 := not_lt.mpr hp
    simp only [maxByStrength, if_neg this]
    exact ih (fun q hq => h q (by simp [hq]))

/-- `maxByStrength` lands on the first entry that strictly dominates the
seed and everything before it and is not beaten afterwards. -/
theorem maxByStrength_append (b p : String × ℚ) (l1 l2 : List (String × ℚ))
    (hb : b.2 < p.2) (h1 : ∀ q ∈ l1, q.2 < p.2) (h2 : ∀ q ∈ l2, q.2 ≤ p.2) :
    maxByStrength b (l1 ++ p :: l2) = p := by
  induction l1 generalizing b with
  | nil =>
    simp only [List.nil_append, maxByStrength, if_pos hb]
    exact maxByStrength_of_le p l2 h2
  | cons q l1 ih =>
    have hq : q.2 < p.2 := h1 q (by simp)
    have hnext : (if b.2 < q.2 then q else b).2 < p.2 := by
      by_cases hbq : b.2 < q.2 <;> simp [hbq, hq, hb]
    simp only [List.cons_append, maxByStrength]
    exact ih _ hnext (fun r hr => h1 r (by simp [hr]))

/-- Python `max` (first-maximum) over a decomposed row: if everything
before `p` is strictly smaller and nothing after it is larger, the
result is `p`. -/
theorem argmaxFirst_eq (p : String × ℚ) (l1 l2 : List (String × ℚ))
    (h1 : ∀ q ∈ l1, q.2 < p.2) (h2 : ∀ q ∈ l2, q.2 ≤ p.2) :
    argmaxFirst (l1 ++ p :: l2) = some p := by
  cases l1 with
  | nil =>
    simp only [List.nil_append, argmaxFirst]
    exact congrArg some (maxByStrength_of_le p l2 h2)
  | cons q l1 =>
    simp only [List.cons_append, argmaxFirst]
    exact congrArg some
      (maxByStrength_append q p l1 l2 (h1 q (by simp))
        (fun r hr => h1 r (by simp [hr])) h2)

/-- Dividing every value of an association row divides the row sum. -/
theorem sum_map_snd_div (l : List (String × ℚ)) (c : ℚ) :
    (((l.map (fun p => (p.1, p.2 / c))).map Prod.snd).sum) = (l.map Prod.snd).sum / c := by
  induction l with
  | nil => simp
  | cons p ps ih => simp only [List.map_cons, List.sum_cons, ih, add_div]

/-- A list of nonnegative rationals with one positive member has a
positive sum. -/
theorem sum_pos_of_mem_pos (l : List ℚ) (h0 : ∀ x ∈ l, 0 ≤ x)
    (x : ℚ) (hx : x ∈ l) (hpos : 0 < x) : 0 < l.sum := by
  induction l with
  | nil => cases hx
  | cons a as ih =>
    rw [List.sum_cons]
    rcases List.mem_cons.mp hx with rfl | hxs
    · exact add_pos_of_pos_of_nonneg hpos
        (List.sum_nonneg (fun y hy => h0 y (by simp [hy])))
    · exact add_pos_of_nonneg_of_pos (h0 a (by simp))
        (ih (fun y hy => h0 y (by simp [hy])) hxs)

/-- C1 (counterexample).  The claim says a metadata entry with an unknown
32-bit type tag (here tag 9) fails to decode; in the source,
`_read_metadata_value` instead returns the default `None` without
consuming any bytes — decoding succeeds. -/
theorem C1_counterexample :
    readMetadataValue ⟨[42], 0⟩ 9 = .ok (none, ⟨[42], 0⟩) := by decide

/-- C1 (amended).  For every type tag outside the nine known variants
(tags 0–8), `_read_metadata_value` raises no error: it returns `None`
(a silently-substituted default) and consumes no bytes, leaving the
stream misaligned for subsequent entries. -/
theorem C1_amended (s : ByteStream) (valueType : Nat) (h : 9 ≤ valueType) :
    readMetadataValue s valueType = .ok (none, s) := by
  unfold readMetadataValue
  repeat rw [if_neg (by omega)]

/-- C1 (witness). -/
theorem C1_amended_witness :
    readMetadataValue ⟨[7, 7], 1⟩ 12 = .ok (none, ⟨[7, 7], 1⟩) :=
  C1_amended ⟨[7, 7], 1⟩ 12 (by omega)

/-- C3 (code evaluation at the failing input).  Two tensors of one
artifact whose names both contain "ffn" are written under the same key
`unified_ffn_0`, because the source's mlp/ffn branch fails to increment
`layer_counter`: the second tensor overwrites the first and the input
tensor `ffn_a` is dropped from the unified output, violating the
place-each-tensor-exactly-once invariant. -/
theorem C3_code_evaluation :
    (mergeExtractedWeights [[("ffn_a", 1), ("ffn_b", 2)]]).feed_forward_layers =
      [("unified_ffn_0", 2)] ∧
    (mergeExtractedWeights [[("ffn_a", 1), ("ffn_b", 2)]]).embedding_layers = [] ∧
    (mergeExtractedWeights [[("ffn_a", 1), ("ffn_b", 2)]]).attention_layers = [] ∧
    (mergeExtractedWeights [[("ffn_a", 1), ("ffn_b", 2)]]).transformer_blocks = [] := by
  decide

/-- C4 (counterexample).  On a table stream with 2 complete entries and a
declared count of 5, the source decoder fails with `struct.error` raised
by `unpack` after the short read, not with the pre-checked
`TruncatedStreamError` of the spec-modelled Container Reader: the two
decoders disagree at this input, refuting the claim that the source
checks availability before each read and fails with
`TruncatedStreamError`. -/
theorem C4_counterexample :
    extractTensorInfo truncatedTable 5 = .error .structError ∧
    extractTensorInfoSpec truncatedTable 5 = .error .truncatedStream ∧
    extractTensorInfo truncatedTable 5 ≠ extractTensorInfoSpec truncatedTable 5 := by
  decide

/-- C4 (amended).  On the truncated container (declared `tensor_count=5`,
stream ending after 2 table entries) the source decodes the first 2
entries, fails at the 3rd entry with `struct.error` (raised by `unpack`
after the bytes have been consumed), and the per-artifact exception
boundary turns the failure into an absent result while a second,
well-formed artifact in the same run still decodes successfully. -/
theorem C4_amended :
    extractTensorInfo truncatedTable 2 =
      .ok ([⟨[97], [2], 0, 0⟩, ⟨[97], [2], 0, 0⟩], ⟨truncatedTable.data, 66⟩) ∧
    extractTensorInfo truncatedTable 3 = .error .structError ∧
    extractTensorInfo truncatedTable 5 = .error .structError ∧
    [extractTensorInfoCaught truncatedTable 5,
     extractTensorInfoCaught ⟨sampleEntryBytes, 0⟩ 1] =
      [none, some [⟨[97], [2], 0, 0⟩]] := by
  decide

/-- C7 (counterexample).  A descriptor with a zero dimension (shape
`[0,3]`, type F32) does not fail: the extractor stores an empty buffer
under the tensor's name, refuting the claimed `EmptyShapeError`. -/
theorem C7_counterexample :
    extractTensorData [1, 2, 3, 4] [⟨[97], [0, 3], 0, 5⟩] =
      ([([97], ⟨[], [0, 3], 0⟩)], []) := by decide

/-- C7 (amended).  For every F32 descriptor with a zero dimension, the
element count (the product of the dims) is 0, so `_extract_tensor_data`
reads zero bytes and stores a buffer with empty data for that tensor —
no failure and no warning. -/
theorem C7_amended (base : List Nat) (name dims : List Nat) (off : Nat)
    (h : 0 ∈ dims) :
    extractTensorData base [⟨name, dims, 0, off⟩] = ([(name, ⟨[], dims, 0⟩)], []) := by
  have hz : dims.foldl (· * ·) 1 = 0 := by
    rw [← List.prod_eq_foldl]
    exact List.prod_eq_zero h
  simp [extractTensorData, tensorStep, hz, fread, dictInsert, chunk4]

/-- C7 (witness). -/
theorem C7_amended_witness :
    extractTensorData [] [⟨[98], [2, 0], 0, 0⟩] = ([([98], ⟨[], [2, 0], 0⟩)], []) :=
  C7_amended [] [98] [2, 0] 0 (by decide)

/-- C8 (counterexample).  A descriptor with an unsupported element type
(tag 7) yields no buffer and the following F32 descriptor is decoded
intact, but no warning is logged for the skipped tensor (the warnings
list is empty), refuting the claim's "with a warning logged". -/
theorem C8_counterexample :
    extractTensorData [1, 2, 3, 4] [⟨[117], [1], 7, 0⟩, ⟨[103], [1], 0, 0⟩] =
      ([([103], ⟨[leVal [1, 2, 3, 4]], [1], 0⟩)], []) := by decide

/-- C8 (amended).  For every descriptor whose element type is neither F32
nor F16, extraction yields no buffer and no log entry for that tensor and
leaves the processing of every other table entry unchanged: removing the
unsupported descriptor from the table gives the identical result (each
entry re-seeks to its own offset, so nothing downstream is skipped or
corrupted); the artifact's extraction is never aborted. -/
theorem C8_amended (base : List Nat) (pre post : List TensorInfo) (t : TensorInfo)
    (h0 : t.ttype ≠ 0) (h1 : t.ttype ≠ 1) :
    extractTensorData base (pre ++ t :: post) = extractTensorData base (pre ++ post) := by
  unfold extractTensorData
  rw [List.foldl_append, List.foldl_append, List.foldl_cons]
  have hstep : ∀ acc, tensorStep base acc t = acc := by
    intro acc
    cases acc with
    | mk layers warnings => simp [tensorStep, h0, h1]
  rw [hstep]

/-- C8 (witness). -/
theorem C8_amended_witness :
    extractTensorData [9] [⟨[5], [1], 3, 0⟩] = extractTensorData [9] [] :=
  C8_amended [9] [] [] ⟨[5], [1], 3, 0⟩ (by decide) (by decide)

/-- C10 (confirmed).  Dissecting a tar archive returns the signature of
the first extracted container that dissects successfully, for every list
of extracted containers: all earlier failing containers are skipped and
everything after the first success — including further dissectable
containers — is ignored, so the archive contributes at most this one
signature. -/
theorem C10_tar_first_success {α : Type} (dissectOne : α → Option ModelSignature)
    (l1 : List α) (m : α) (l2 : List α) (sig : ModelSignature)
    (h1 : ∀ x ∈ l1, dissectOne x = none) (hm : dissectOne m = some sig) :
    dissectTarContents dissectOne (l1 ++ m :: l2) = some sig := by
  induction l1 with
  | nil => simp [dissectTarContents, hm]
  | cons x xs ih =>
    have hx : dissectOne x = none := h1 x (by simp)
    rw [List.cons_append]
    simp only [dissectTarContents, hx]
    exact ih (fun y hy => h1 y (by simp [hy]))

/-- C10 (witness): among three extracted containers where the 2nd and 3rd
both dissect successfully, only the 2nd one's signature is returned. -/
theorem C10_tar_first_success_witness :
    dissectTarContents
      (fun n => if n = 1 then some artifactA else if n = 2 then some artifactB else none)
      ([0] ++ 1 :: [2]) = some artifactA :=
  C10_tar_first_success _ [0] 1 [2] artifactA
    (by intro x hx; rw [List.mem_singleton] at hx; subst hx; rfl) rfl

/-- C2 (counterexample).  One artifact with a recorded strength of 0 and
no capabilities has raw fusion weight 0; the claim demands the uniform
fallback `1/N = 1`, but `calculate_fusion_weights` skips normalization
when the total is not positive and returns the all-zero weights. -/
theorem C2_counterexample :
    calculateFusionWeights [⟨"m", [], [("speed", 0)]⟩] = [("m", 0)] ∧
    calculateFusionWeights [⟨"m", [], [("speed", 0)]⟩] ≠ [("m", 1)] := by
  have h : calculateFusionWeights [⟨"m", [], [("speed", 0)]⟩] = [("m", 0)] := by
    norm_num +decide [calculateFusionWeights, rawFusionWeights, overallWeight]
  exact ⟨h, by rw [h]; norm_num⟩

/-- C2 (amended).  When the raw fusion weights
(`0.7 * mean(strengths) + 0.3 * len(capabilities)/10` per artifact) are
nonnegative and at least one is positive, the normalized weights sum to
exactly 1; when every raw weight is 0 the function returns the raw
(all-zero) weights unchanged — there is no uniform `1/N` fallback. -/
theorem C2_amended (sigs : List ModelSignature) :
    ((∀ p ∈ rawFusionWeights sigs, 0 ≤ p.2) →
      (∃ p ∈ rawFusionWeights sigs, 0 < p.2) →
      ((calculateFusionWeights sigs).map Prod.snd).sum = 1) ∧
    ((∀ p ∈ rawFusionWeights sigs, p.2 = 0) →
      calculateFusionWeights sigs = rawFusionWeights sigs) := by
  constructor
  · rintro hn ⟨p, hp, hpos⟩
    have htot : 0 < ((rawFusionWeights sigs).map Prod.snd).sum := by
      refine sum_pos_of_mem_pos _ ?_ p.2 (List.mem_map_of_mem Prod.snd hp) hpos
      intro x hx
      rcases List.mem_map.mp hx with ⟨q, hq, rfl⟩
      exact hn q hq
    unfold calculateFusionWeights
    rw [if_pos htot, sum_map_snd_div]
    exact div_self (ne_of_gt htot)
  · intro hz
    have htot : ((rawFusionWeights sigs).map Prod.snd).sum = 0 := by
      apply List.sum_eq_zero
      intro x hx
      rcases List.mem_map.mp hx with ⟨q, hq, rfl⟩
      exact hz q hq
    unfold calculateFusionWeights
    simp only [htot]
    rw [if_neg (lt_irrefl 0)]

/-- C2 (witness). -/
theorem C2_amended_witness :
    ((calculateFusionWeights [artifactA]).map Prod.snd).sum = 1 :=
  (C2_amended [artifactA]).1
    (by
      intro p hp
      norm_num +decide [rawFusionWeights, overallWeight, artifactA] at hp
      rw [hp]
      norm_num)
    (by
      refine ⟨("A", 19 / 25), ?_, by norm_num⟩
      norm_num +decide [rawFusionWeights, overallWeight, artifactA])

/-- C5 (confirmed).  For every domain of the fixed routing set whose
capability-matrix row decomposes as `l1 ++ (a, v) :: l2` with every
earlier strength strictly below `v` and no later strength above `v`, the
`domain_experts` routing table maps the domain to `a`: the chosen
artifact is maximal and ties are broken by first-seen order of the
artifacts. -/
theorem C5_routing_argmax (sigs : List ModelSignature) (d : String)
    (l1 l2 : List (String × ℚ)) (a : String) (v : ℚ)
    (hd : d ∈ fixedDomains)
    (hrow : (capabilityMatrix sigs).lookup d = some (l1 ++ (a, v) :: l2))
    (h1 : ∀ q ∈ l1, q.2 < v) (h2 : ∀ q ∈ l2, q.2 ≤ v) :
    (domainExperts sigs).lookup d = some (some a) := by
  have hbest : getBestModelForDomain sigs d = some a := by
    unfold getBestModelForDomain
    rw [hrow]
    show (argmaxFirst (l1 ++ (a, v) :: l2)).map Prod.fst = some a
    rw [argmaxFirst_eq (a, v) l1 l2 h1 h2]
    rfl
  have hlk := lookup_map_self (getBestModelForDomain sigs) fixedDomains d hd
  unfold domainExperts
  rw [hlk, hbest]

/-- C5 (witness): the spec's example scenario — A scores 0.9/0.2 and B
scores 0.1/0.8 on mathematics/coding, so the routing table maps
mathematics to A and coding to B. -/
theorem C5_routing_argmax_witness :
    (domainExperts [artifactA, artifactB]).lookup "mathematics" = some (some "A") ∧
    (domainExperts [artifactA, artifactB]).lookup "coding" = some (some "B") := by
  constructor
  · exact C5_routing_argmax [artifactA, artifactB] "mathematics"
      [] [("B", 1 / 10)] "A" (9 / 10)
      (by decide)
      (by
        norm_num +decide [capabilityMatrix, allDomains, dedupFirst, dedupAux,
          domainStrength, artifactA, artifactB, List.lookup]
        try rfl)
      (by simp)
      (by intro q hq; rw [List.mem_singleton] at hq; rw [hq]; norm_num)
  · exact C5_routing_argmax [artifactA, artifactB] "coding"
      [("A", 2 / 10)] [] "B" (8 / 10)
      (by decide)
      (by
        norm_num +decide [capabilityMatrix, allDomains, dedupFirst, dedupAux,
          domainStrength, artifactA, artifactB, List.lookup]
        try rfl)
      (by intro q hq; rw [List.mem_singleton] at hq; rw [hq]; norm_num)
      (by simp)

/-- C6 (confirmed).  For every domain appearing in any signature's
capability set, the capability matrix has a row holding a numeric entry
for every one of the signatures, and that entry is 0 for a signature
with no capability in the domain: the matrix is dense, never partial. -/
theorem C6_matrix_dense (sigs : List ModelSignature) (d : String)
    (h : d ∈ allDomains sigs) :
    ∃ row, (capabilityMatrix sigs).lookup d = some row ∧
      (∀ s ∈ sigs, (s.model_name, domainStrength d s) ∈ row) ∧
      (∀ s ∈ sigs, s.capabilities.filter (fun c => c.domain = d) = [] →
        (s.model_name, (0 : ℚ)) ∈ row) := by
  refine ⟨sigs.map (fun s => (s.model_name, domainStrength d s)), ?_, ?_, ?_⟩
  · unfold capabilityMatrix
    exact lookup_map_self _ (allDomains sigs) d h
  · intro s hs
    exact List.mem_map_of_mem _ hs
  · intro s hs hemp
    have hz : domainStrength d s = 0 := by simp [domainStrength, hemp]
    rw [← hz]
    exact List.mem_map_of_mem _ hs

/-- C6 (witness). -/
theorem C6_matrix_dense_witness :
    ∃ row, (capabilityMatrix [artifactA, artifactB]).lookup "mathematics" = some row ∧
      (∀ s ∈ [artifactA, artifactB],
        (s.model_name, domainStrength "mathematics" s) ∈ row) ∧
      (∀ s ∈ [artifactA, artifactB],
        s.capabilities.filter (fun c => c.domain = "mathematics") = [] →
        (s.model_name, (0 : ℚ)) ∈ row) :=
  C6_matrix_dense [artifactA, artifactB] "mathematics" (by decide)

/-- C9 (counterexample).  For the mathematics domain the source tests its
indicators with a case-sensitive `in`: the response "X" contains the
indicator "x" case-insensitively but scores only the length bonus 1/100
in the source, while the claimed case-insensitive formula gives
1/17 + 1/100 = 117/1700. -/
theorem C9_counterexample :
    scoreResponse "p" "X" "mathematics" = 1 / 100 ∧
    scoreResponseSpec "X" "mathematics" = 117 / 1700 ∧
    scoreResponse "p" "X" "mathematics" ≠ scoreResponseSpec "X" "mathematics" := by
  have h1 : scoreResponse "p" "X" "mathematics" = 1 / 100 := by
    norm_num +decide [scoreResponse, strTrim, countCS, mathIndicators, strContains,
      containsSub, matchesAt, lengthBonus, String.length, min_def]
  have h2 : scoreResponseSpec "X" "mathematics" = 117 / 1700 := by
    norm_num +decide [scoreResponseSpec, indicatorsFor, countCI, mathIndicators,
      strContains, containsSub, matchesAt, strLower, lengthBonus, String.length,
      min_def, max_def]
  exact ⟨h1, h2, by rw [h1, h2]; norm_num⟩

/-- C9 (amended).  Every score returned by `score_response` lies in
[0,1]; a blank (whitespace-only) response scores 0 with no length bonus;
a non-blank response scores the indicator count divided by the
vocabulary size plus `min(0.3, len/100)`, clamped above by 1 — where the
count is case-INsensitive for coding, reasoning, language, creativity
and knowledge, but case-SENSITIVE for mathematics. -/
theorem C9_amended :
    (∀ p r d, 0 ≤ scoreResponse p r d ∧ scoreResponse p r d ≤ 1) ∧
    (∀ p r, strTrim r = "" → scoreResponse p r "mathematics" = 0) ∧
    (∀ p r, strTrim r ≠ "" → scoreResponse p r "mathematics" =
      min 1 ((countCS mathIndicators r : ℚ) / 17 + lengthBonus r)) ∧
    (∀ p r, strTrim r ≠ "" → scoreResponse p r "coding" =
      min 1 ((countCI codeIndicators r : ℚ) / 10 + lengthBonus r)) ∧
    (∀ p r, strTrim r ≠ "" → scoreResponse p r "reasoning" =
      min 1 ((countCI logicIndicators r : ℚ) / 8 + lengthBonus r)) ∧
    (∀ p r, strTrim r ≠ "" → scoreResponse p r "language" =
      min 1 ((countCI langIndicators r : ℚ) / 10 + lengthBonus r)) ∧
    (∀ p r, strTrim r ≠ "" → scoreResponse p r "creativity" =
      min 1 ((countCI creativeIndicators r : ℚ) / 8 + lengthBonus r)) ∧
    (∀ p r, strTrim r ≠ "" → scoreResponse p r "knowledge" =
      min 1 ((countCI factIndicators r : ℚ) / 9 + lengthBonus r)) := by
  have hbonus : ∀ r, 0 ≤ lengthBonus r := by
    intro r
    exact le_min (by norm_num) (by positivity)
  refine ⟨?_, ?_, ?_, ?_, ?_, ?_, ?_, ?_⟩
  · intro p r d
    by_cases hb : strTrim r = ""
    · simp [scoreResponse, hb]
    · simp only [scoreResponse, if_neg hb]
      constructor
      · refine le_min (by norm_num) (add_nonneg ?_ (hbonus r))
        split_ifs <;> positivity
      · exact min_le_left _ _
  · intro p r hb
    simp [scoreResponse, hb]
  · intro p r hb
    simp only [scoreResponse, if_neg hb]
    norm_num +decide [mathIndicators]
  · intro p r hb
    simp only [scoreResponse, if_neg hb]
    norm_num +decide [codeIndicators]
  · intro p r hb
    simp only [scoreResponse, if_neg hb]
    norm_num +decide [logicIndicators]
  · intro p r hb
    simp only [scoreResponse, if_neg hb]
    norm_num +decide [langIndicators]
  · intro p r hb
    simp only [scoreResponse, if_neg hb]
    norm_num +decide [creativeIndicators]
  · intro p r hb
    simp only [scoreResponse, if_neg hb]
    norm_num +decide [factIndicators]

/-- C9 (witness). -/
theorem C9_amended_witness :
    scoreResponse "p" "x + y" "mathematics" =
      min 1 ((countCS mathIndicators "x + y" : ℚ) / 17 + lengthBonus "x + y") :=
  (C9_amended.2.2.1) "p" "x + y" (by decide)
